import Mathlib

/-
Verification of the PromptLab backend (src/backend/app): a shallow embedding
of the storage layer (storage.py), the pure query utilities (utils.py) and
the API handlers (api.py), together with proofs of the specified properties.

Python dictionaries are modelled as insertion-ordered association lists
(`List (String × α)`): assignment replaces the value of an existing key in
place and appends a fresh key at the end, exactly as a Python dict does.
Timestamps (`datetime.utcnow()`) are modelled as natural numbers supplied to
each operation as an explicit `now` argument; identifier generation
(`uuid4()`) is modelled as an explicit `newId` argument.
-/

namespace PromptLab

/-! ## Python dict model -/

/-- Lookup in an insertion-ordered association list (Python `d.get(k)`). -/
def dlookup {α : Type} : List (String × α) → String → Option α
  | [], _ => none
  | kp :: rest, k => if kp.1 = k then some kp.2 else dlookup rest k

/-- Assignment `d[k] = v` in a Python dict: replace in place if the key is
present, append at the end otherwise. -/
def dinsert {α : Type} : List (String × α) → String → α → List (String × α)
  | [], k, v => [(k, v)]
  | kp :: rest, k, v => if kp.1 = k then (k, v) :: rest else kp :: dinsert rest k v

/-- Deletion `del d[k]` in a Python dict: remove the entry with the key. -/
def derase {α : Type} : List (String × α) → String → List (String × α)
  | [], _ => []
  | kp :: rest, k => if kp.1 = k then rest else kp :: derase rest k

/-! ## Entity model (models.py) -/

/-- Model of `Prompt` from models.py.  `description` and `collection_id` are
`Optional[str]` in the source; `datetime` fields are modelled as `Nat`. -/
structure Prompt where
  id : String
  title : String
  content : String
  description : Option String
  collection_id : Option String
  created_at : Nat
  updated_at : Nat
deriving DecidableEq

/-- Model of `Collection` from models.py. -/
structure Collection where
  id : String
  name : String
  description : Option String
  created_at : Nat
deriving DecidableEq

/-- Model of `PromptCreate`: the request body for creating a prompt
(title and content required, description and collection_id optional). -/
structure PromptCreate where
  title : String
  content : String
  description : Option String
  collection_id : Option String
deriving DecidableEq

/-- Model of `PromptUpdate`: the request body for a full update; it has the
same fields as `PromptCreate` (both inherit `PromptBase`). -/
structure PromptUpdate where
  title : String
  content : String
  description : Option String
  collection_id : Option String
deriving DecidableEq

/-- Model of `PromptPatch`: every field is optional AND the handler reads the
request with `exclude_unset=True`, so a field that is absent from the request
(outer `none`) is distinguished from a field explicitly set to null
(`some none`) and from a field set to a string (`some (some v)`). -/
structure PromptPatch where
  title : Option (Option String)
  content : Option (Option String)
  description : Option (Option String)
  collection_id : Option (Option String)
deriving DecidableEq

/-- Model of `CollectionCreate`. -/
structure CollectionCreate where
  name : String
  description : Option String
deriving DecidableEq

/-- The two error kinds produced by the handlers: HTTP 404 (`NotFound`) and
HTTP 400 for a bad collection reference (`InvalidReference`). -/
inductive ApiError where
  | NotFound
  | InvalidReference
deriving DecidableEq

/-! ## Storage (storage.py) -/

/-- The in-memory store: two Python dicts, `_prompts` and `_collections`. -/
structure Storage where
  prompts : List (String × Prompt)
  collections : List (String × Collection)
deriving DecidableEq

/-- The initial store of `Storage.__init__`: both dicts empty. -/
def Storage.empty : Storage := { prompts := [], collections := [] }

/-- `Storage.create_prompt`: `self._prompts[prompt.id] = prompt`. -/
def Storage.create_prompt (s : Storage) (p : Prompt) : Storage :=
  { s with prompts := dinsert s.prompts p.id p }

/-- `Storage.get_prompt`: `self._prompts.get(prompt_id)`. -/
def Storage.get_prompt (s : Storage) (pid : String) : Option Prompt :=
  dlookup s.prompts pid

/-- `Storage.get_all_prompts`: `list(self._prompts.values())`. -/
def Storage.get_all_prompts (s : Storage) : List Prompt :=
  s.prompts.map Prod.snd

/-- `Storage.update_prompt`: returns `None` and leaves the store unchanged if
the id is absent, otherwise stores the replacement and returns it. -/
def Storage.update_prompt (s : Storage) (pid : String) (p : Prompt) :
    Option Prompt × Storage :=
  match dlookup s.prompts pid with
  | none => (none, s)
  | some _ => (some p, { s with prompts := dinsert s.prompts pid p })

/-- `Storage.delete_prompt`: deletes the entry if present and reports whether
an entry existed. -/
def Storage.delete_prompt (s : Storage) (pid : String) : Bool × Storage :=
  match dlookup s.prompts pid with
  | some _ => (true, { s with prompts := derase s.prompts pid })
  | none => (false, s)

/-- `Storage.create_collection`: `self._collections[collection.id] = collection`. -/
def Storage.create_collection (s : Storage) (c : Collection) : Storage :=
  { s with collections := dinsert s.collections c.id c }

/-- `Storage.get_collection`: `self._collections.get(collection_id)`. -/
def Storage.get_collection (s : Storage) (cid : String) : Option Collection :=
  dlookup s.collections cid

/-- `Storage.get_all_collections`: `list(self._collections.values())`. -/
def Storage.get_all_collections (s : Storage) : List Collection :=
  s.collections.map Prod.snd

/-- `Storage.delete_collection`: deletes the entry if present and reports
whether an entry existed. -/
def Storage.delete_collection (s : Storage) (cid : String) : Bool × Storage :=
  match dlookup s.collections cid with
  | some _ => (true, { s with collections := derase s.collections cid })
  | none => (false, s)

/-- `Storage.get_prompts_by_collection`: all stored prompt values whose
`collection_id` equals the given id.  In the source `p.collection_id` is
`Optional[str]` and the argument is `str`, so a prompt with `collection_id`
equal to `None` never matches; the comparison is exact. -/
def Storage.get_prompts_by_collection (s : Storage) (cid : String) : List Prompt :=
  (s.prompts.map Prod.snd).filter (fun p => decide (p.collection_id = some cid))

/-! ## Query utilities (utils.py) -/

/-- Model of Python `str.lower()`: lowercase every character. -/
def lowerStr (s : String) : String := String.mk (s.data.map Char.toLower)

/-- Auxiliary for substring search: does the needle occur at the very start
of the haystack? -/
def matchAt : List Char → List Char → Bool
  | [], _ => true
  | _ :: _, [] => false
  | q :: qs, c :: cs => q == c && matchAt qs cs

/-- Model of Python's substring test `needle in hay` on character lists:
the needle occurs at the start, or somewhere in the tail. -/
def containsSub (q : List Char) : List Char → Bool
  | [] => matchAt q []
  | c :: cs => matchAt q (c :: cs) || containsSub q cs

/-- Python `q in s` for strings. -/
def strIn (q s : String) : Bool := containsSub q.data s.data

/-- The comparison used for descending date order (Python
`sorted(..., reverse=True)` keyed by `created_at`). -/
def leDesc (a b : Prompt) : Bool := decide (b.created_at ≤ a.created_at)

/-- The comparison used for ascending date order. -/
def leAsc (a b : Prompt) : Bool := decide (a.created_at ≤ b.created_at)

/-- `sort_prompts_by_date` from utils.py: Python's `sorted` is a stable sort,
modelled by the (stable) `List.mergeSort`. -/
def sort_prompts_by_date (prompts : List Prompt) (descending : Bool) : List Prompt :=
  if descending then prompts.mergeSort leDesc else prompts.mergeSort leAsc

/-- `filter_prompts_by_collection` from utils.py. -/
def filter_prompts_by_collection (prompts : List Prompt) (cid : String) : List Prompt :=
  prompts.filter (fun p => decide (p.collection_id = some cid))

/-- `search_prompts` from utils.py.  A prompt matches when the lowercased
query occurs in the lowercased title, or the description is truthy in the
Python sense (not `None` and not `""`) and the lowercased query occurs in
its lowercase. -/
def search_prompts (prompts : List Prompt) (query : String) : List Prompt :=
  let ql := lowerStr query
  prompts.filter (fun p =>
    strIn ql (lowerStr p.title) ||
      (match p.description with
       | some d => decide (d ≠ "") && strIn ql (lowerStr d)
       | none => false))

/-- Match predicate worded exactly as the specification describes search:
case-insensitive substring match against the title OR, when the prompt has a
description, against the description (prompts with no description are
matched on title only). -/
def specMatches (query : String) (p : Prompt) : Bool :=
  strIn (lowerStr query) (lowerStr p.title) ||
    (match p.description with
     | some d => strIn (lowerStr query) (lowerStr d)
     | none => false)

/-! ## API handlers (api.py) -/

/-- The reference check shared by `create_prompt` and `update_prompt`:
`if prompt_data.collection_id:` (truthy means neither `None` nor `""`),
`raise 400` when no collection with that id exists. -/
def refInvalid (s : Storage) (cid? : Option String) : Bool :=
  match cid? with
  | none => false
  | some cid => if cid = "" then false else (Storage.get_collection s cid).isNone

/-- One step of the patch merge loop for a required string field
(`title`, `content`): the new value is applied only when the field was
supplied, is not null and is not the empty string. -/
def mergeReq (old : String) : Option (Option String) → String
  | none => old
  | some none => old
  | some (some v) => if v = "" then old else v

/-- One step of the patch merge loop for the optional `description` field:
the same rule as `mergeReq`, with an optional stored value. -/
def mergeOpt (old : Option String) : Option (Option String) → Option String
  | none => old
  | some none => old
  | some (some v) => if v = "" then old else some v

/-- The `collection_id` branch of the patch merge loop: a truthy supplied
value must resolve to an existing collection (`none` = abort with 400),
anything else (absent, null, empty string) keeps the old value. -/
def patchCid (s : Storage) (old : Option String) :
    Option (Option String) → Option (Option String)
  | none => some old
  | some none => some old
  | some (some v) =>
      if v = "" then some old
      else
        match Storage.get_collection s v with
        | none => none
        | some _ => some (some v)

/-- The full replacement record built by the `update_prompt` handler: every
mutable field taken from the request, `id` and `created_at` from the
existing record, `updated_at` refreshed. -/
def replacedPrompt (existing : Prompt) (d : PromptUpdate) (now : Nat) : Prompt :=
  { id := existing.id
    title := d.title
    content := d.content
    description := d.description
    collection_id := d.collection_id
    created_at := existing.created_at
    updated_at := now }

/-- The merged record built by the `patch_prompt` handler, given the
already-validated new `collection_id` value. -/
def mergedPrompt (existing : Prompt) (d : PromptPatch) (newCid : Option String)
    (now : Nat) : Prompt :=
  { id := existing.id
    title := mergeReq existing.title d.title
    content := mergeReq existing.content d.content
    description := mergeOpt existing.description d.description
    collection_id := newCid
    created_at := existing.created_at
    updated_at := now }

/-- The record built by the `create_prompt` handler: the supplied fields
with a generated id and `created_at = updated_at = now` (default factories
of the `Prompt` model). -/
def createdPrompt (d : PromptCreate) (newId : String) (now : Nat) : Prompt :=
  { id := newId
    title := d.title
    content := d.content
    description := d.description
    collection_id := d.collection_id
    created_at := now
    updated_at := now }

/-- Handler `create_prompt` (POST /prompts).  `newId` stands for the
generated `uuid4` and `now` for `datetime.utcnow()`. -/
def Api.create_prompt (s : Storage) (d : PromptCreate) (newId : String) (now : Nat) :
    Storage × Except ApiError Prompt :=
  if refInvalid s d.collection_id then (s, Except.error ApiError.InvalidReference)
  else (Storage.create_prompt s (createdPrompt d newId now),
    Except.ok (createdPrompt d newId now))

/-- Handler `get_prompt` (GET /prompts/id). -/
def Api.get_prompt (s : Storage) (pid : String) : Except ApiError Prompt :=
  match Storage.get_prompt s pid with
  | none => Except.error ApiError.NotFound
  | some p => Except.ok p

/-- Handler `update_prompt` (PUT /prompts/id): 404 when the prompt is
missing, 400 when a truthy `collection_id` does not resolve, otherwise a
full replacement that keeps `id` and `created_at` from the existing record
and refreshes `updated_at`. -/
def Api.update_prompt (s : Storage) (pid : String) (d : PromptUpdate) (now : Nat) :
    Storage × Except ApiError Prompt :=
  match Storage.get_prompt s pid with
  | none => (s, Except.error ApiError.NotFound)
  | some existing =>
      if refInvalid s d.collection_id then (s, Except.error ApiError.InvalidReference)
      else
        match Storage.update_prompt s pid (replacedPrompt existing d now) with
        | (some q, s') => (s', Except.ok q)
        | (none, s') => (s', Except.error ApiError.NotFound)

/-- Handler `patch_prompt` (PATCH /prompts/id): merge the supplied fields
into a copy of the existing record (the loop over
`prompt_data.dict(exclude_unset=True)`), then store the merged prompt.  The
store is not touched before the merged record is complete, so an aborted
patch leaves it unchanged. -/
def Api.patch_prompt (s : Storage) (pid : String) (d : PromptPatch) (now : Nat) :
    Storage × Except ApiError Prompt :=
  match Storage.get_prompt s pid with
  | none => (s, Except.error ApiError.NotFound)
  | some existing =>
      match patchCid s existing.collection_id d.collection_id with
      | none => (s, Except.error ApiError.InvalidReference)
      | some newCid =>
          match Storage.update_prompt s pid (mergedPrompt existing d newCid now) with
          | (some q, s') => (s', Except.ok q)
          | (none, s') => (s', Except.error ApiError.NotFound)

/-- Handler `delete_prompt` (DELETE /prompts/id). -/
def Api.delete_prompt (s : Storage) (pid : String) : Storage × Except ApiError Unit :=
  match Storage.delete_prompt s pid with
  | (true, s') => (s', Except.ok ())
  | (false, s') => (s', Except.error ApiError.NotFound)

/-- Handler `create_collection` (POST /collections): never fails. -/
def Api.create_collection (s : Storage) (d : CollectionCreate) (newId : String) (now : Nat) :
    Storage × Collection :=
  let c : Collection :=
    { id := newId, name := d.name, description := d.description, created_at := now }
  (Storage.create_collection s c, c)

/-- Handler `get_collection` (GET /collections/id). -/
def Api.get_collection (s : Storage) (cid : String) : Except ApiError Collection :=
  match Storage.get_collection s cid with
  | none => Except.error ApiError.NotFound
  | some c => Except.ok c

/-- Handler `delete_collection` (DELETE /collections/id): first delete every
prompt whose `collection_id` equals the id, THEN delete the collection and
report 404 if it did not exist.  Note that the cascade runs before the
existence check, exactly as in the source. -/
def Api.delete_collection (s : Storage) (cid : String) : Storage × Except ApiError Unit :=
  match Storage.delete_collection
      ((Storage.get_prompts_by_collection s cid).foldl
        (fun st p => (Storage.delete_prompt st p.id).2) s) cid with
  | (true, s2) => (s2, Except.ok ())
  | (false, s2) => (s2, Except.error ApiError.NotFound)

/-- Handler `list_prompts` (GET /prompts): optional collection filter,
optional search, then sort by date descending.  A query-string parameter
that is absent or empty is falsy in Python and skips its stage. -/
def Api.list_prompts (s : Storage) (collection_id : Option String)
    (search : Option String) : List Prompt :=
  let ps := Storage.get_all_prompts s
  let ps := match collection_id with
    | some cid => if cid = "" then ps else filter_prompts_by_collection ps cid
    | none => ps
  let ps := match search with
    | some q => if q = "" then ps else search_prompts ps q
    | none => ps
  sort_prompts_by_date ps true

/-! ## Store invariants and the operation machine -/

/-- The keys of an association list are pairwise distinct — every list that
represents a Python dict satisfies this. -/
abbrev NodupKeys {α : Type} (l : List (String × α)) : Prop :=
  (l.map Prod.fst).Nodup

/-- Every entry's stored value carries the key as its `id`-like field. -/
abbrev Keyed {α : Type} (f : α → String) (l : List (String × α)) : Prop :=
  ∀ kp ∈ l, f kp.2 = kp.1

/-- The representation invariant of the store: both dicts have distinct keys
and every entity is stored under its own id. -/
abbrev Inv (s : Storage) : Prop :=
  NodupKeys s.prompts ∧ Keyed Prompt.id s.prompts ∧
    NodupKeys s.collections ∧ Keyed Collection.id s.collections

/-- Timestamp invariant relative to a clock bound `b`: every stored prompt
has `created_at ≤ updated_at ≤ b`. -/
abbrev TimesOK (b : Nat) (s : Storage) : Prop :=
  ∀ kp ∈ s.prompts, kp.2.created_at ≤ kp.2.updated_at ∧ kp.2.updated_at ≤ b

/-- One API request, with the generated id and the clock reading it uses. -/
inductive ApiOp where
  | createPrompt (d : PromptCreate) (newId : String) (now : Nat)
  | getPrompt (pid : String)
  | updatePrompt (pid : String) (d : PromptUpdate) (now : Nat)
  | patchPrompt (pid : String) (d : PromptPatch) (now : Nat)
  | deletePrompt (pid : String)
  | createCollection (d : CollectionCreate) (newId : String) (now : Nat)
  | getCollection (cid : String)
  | deleteCollection (cid : String)

/-- The store produced by serving one request (reads leave it unchanged). -/
def ApiOp.step (s : Storage) : ApiOp → Storage
  | ApiOp.createPrompt d newId now => (Api.create_prompt s d newId now).1
  | ApiOp.getPrompt _ => s
  | ApiOp.updatePrompt pid d now => (Api.update_prompt s pid d now).1
  | ApiOp.patchPrompt pid d now => (Api.patch_prompt s pid d now).1
  | ApiOp.deletePrompt pid => (Api.delete_prompt s pid).1
  | ApiOp.createCollection d newId now => (Api.create_collection s d newId now).1
  | ApiOp.getCollection _ => s
  | ApiOp.deleteCollection cid => (Api.delete_collection s cid).1

/-- The clock reading an operation consumes, when it consumes one. -/
def ApiOp.time : ApiOp → Option Nat
  | ApiOp.createPrompt _ _ now => some now
  | ApiOp.updatePrompt _ _ now => some now
  | ApiOp.patchPrompt _ _ now => some now
  | ApiOp.createCollection _ _ now => some now
  | _ => none

/-- The store after serving a whole sequence of requests from the empty
store. -/
def runOps (ops : List ApiOp) : Storage :=
  ops.foldl ApiOp.step Storage.empty

/-- The clock readings along a request sequence never decrease, starting
from the bound `b` (real wall-clock time is monotone). -/
def WellTimed : Nat → List ApiOp → Prop
  | _, [] => True
  | b, op :: ops =>
      match ApiOp.time op with
      | some t => b ≤ t ∧ WellTimed t ops
      | none => WellTimed b ops

/-! ## Concrete sample data (used by witnesses and the counterexample) -/

/-- A sample stored prompt, member of collection `c1`. -/
def pMember : Prompt :=
  { id := "p1", title := "Hello World", content := "greet the user"
    description := some "a greeting", collection_id := some "c1"
    created_at := 3, updated_at := 5 }

/-- A sample stored prompt belonging to no collection. -/
def pLoose : Prompt :=
  { id := "p2", title := "Recipe", content := "bake a cake"
    description := none, collection_id := none
    created_at := 3, updated_at := 3 }

/-- A sample collection. -/
def cSample : Collection :=
  { id := "c1", name := "Greetings", description := none, created_at := 1 }

/-- A small well-formed store holding both sample prompts and the sample
collection. -/
def sampleStore : Storage :=
  { prompts := [("p1", pMember), ("p2", pLoose)]
    collections := [("c1", cSample)] }

/-- A store holding a prompt that references a collection id that is not a
key of the collections dict (a dangling reference). -/
def danglingStore : Storage :=
  { prompts := [("p1", pMember)], collections := [] }

/-- A full-update body whose `collection_id` does not resolve. -/
def dBadUpdate : PromptUpdate :=
  { title := "T", content := "C", description := none, collection_id := some "zz" }

/-- A patch body whose `collection_id` does not resolve. -/
def dBadPatch : PromptPatch :=
  { title := none, content := none, description := none
    collection_id := some (some "zz") }

/-- A full-update body that passes the reference check and clears both
optional fields. -/
def dGoodUpdate : PromptUpdate :=
  { title := "New title", content := "New content", description := none
    collection_id := none }

/-- A patch body supplying empty strings for title and description, leaving
content unset and the collection reference untouched. -/
def dEmptyPatch : PromptPatch :=
  { title := some (some ""), content := none, description := some (some "")
    collection_id := none }

/-- A creation body referencing the collection created by `opsW`. -/
def dW : PromptCreate :=
  { title := "T", content := "C", description := none, collection_id := some "c9" }

/-- A collection-creation body. -/
def cW : CollectionCreate := { name := "G", description := none }

/-- A small concrete request sequence: create a collection at time 1, then a
prompt inside it at time 2. -/
def opsW : List ApiOp :=
  [ApiOp.createCollection cW "c9" 1, ApiOp.createPrompt dW "p9" 2]

/-! ## Association-list lemmas -/

theorem dlookup_mem {α : Type} {l : List (String × α)} {k : String} {v : α}
    (h : dlookup l k = some v) : (k, v) ∈ l := by
  induction l with
  | nil => simp [dlookup] at h
  | cons hd rest ih =>
      obtain ⟨a, b⟩ := hd
      rw [dlookup] at h
      by_cases hk : a = k
      · subst hk
        rw [if_pos rfl] at h
        cases h
        exact List.mem_cons_self _ _
      · rw [if_neg hk] at h
        exact List.mem_cons_of_mem _ (ih h)

theorem mem_dinsert {α : Type} {l : List (String × α)} {k : String} {v : α}
    {kp : String × α} (h : kp ∈ dinsert l k v) : kp ∈ l ∨ kp = (k, v) := by
  induction l with
  | nil => simpa [dinsert] using h
  | cons hd rest ih =>
      rw [dinsert] at h
      by_cases hk : hd.1 = k
      · rw [if_pos hk] at h
        rcases List.mem_cons.1 h with h1 | h1
        · exact Or.inr h1
        · exact Or.inl (List.mem_cons_of_mem _ h1)
      · rw [if_neg hk] at h
        rcases List.mem_cons.1 h with h1 | h1
        · exact Or.inl (h1 ▸ List.mem_cons_self _ _)
        · rcases ih h1 with h2 | h2
          · exact Or.inl (List.mem_cons_of_mem _ h2)
          · exact Or.inr h2

theorem mem_keys_dinsert {α : Type} {l : List (String × α)} {k : String} {v : α}
    {k' : String} (h : k' ∈ (dinsert l k v).map Prod.fst) :
    k' ∈ l.map Prod.fst ∨ k' = k := by
  rcases List.mem_map.1 h with ⟨kp, hkp, hfst⟩
  rcases mem_dinsert hkp with h1 | h1
  · exact Or.inl (hfst ▸ List.mem_map_of_mem _ h1)
  · subst h1
    exact Or.inr hfst.symm

theorem nodup_dinsert {α : Type} {l : List (String × α)} {k : String} {v : α}
    (h : NodupKeys l) : NodupKeys (dinsert l k v) := by
  induction l with
  | nil => simp [dinsert, NodupKeys]
  | cons hd rest ih =>
      unfold NodupKeys at h ⊢
      rw [List.map_cons, List.nodup_cons] at h
      rw [dinsert]
      by_cases hk : hd.1 = k
      · rw [if_pos hk, List.map_cons, List.nodup_cons]
        exact ⟨hk ▸ h.1, h.2⟩
      · rw [if_neg hk, List.map_cons, List.nodup_cons]
        refine ⟨fun hmem => ?_, ih h.2⟩
        rcases mem_keys_dinsert hmem with h1 | h1
        · exact h.1 h1
        · exact hk h1

theorem keyed_dinsert {α : Type} {f : α → String} {l : List (String × α)}
    {k : String} {v : α} (h : Keyed f l) (hv : f v = k) :
    Keyed f (dinsert l k v) := by
  intro kp hkp
  rcases mem_dinsert hkp with h1 | h1
  · exact h kp h1
  · subst h1
    exact hv

theorem derase_sublist {α : Type} (l : List (String × α)) (k : String) :
    List.Sublist (derase l k) l := by
  induction l with
  | nil => simp [derase]
  | cons hd rest ih =>
      rw [derase]
      by_cases hk : hd.1 = k
      · rw [if_pos hk]
        exact List.sublist_cons_self _ _
      · rw [if_neg hk]
        exact List.Sublist.cons₂ _ ih

theorem nodup_derase {α : Type} {l : List (String × α)} {k : String}
    (h : NodupKeys l) : NodupKeys (derase l k) :=
  List.Nodup.sublist (List.Sublist.map _ (derase_sublist l k)) h

theorem keyed_derase {α : Type} {f : α → String} {l : List (String × α)}
    {k : String} (h : Keyed f l) : Keyed f (derase l k) :=
  fun kp hkp => h kp (List.Sublist.mem hkp (derase_sublist l k))

theorem dlookup_dinsert_self {α : Type} (l : List (String × α)) (k : String) (v : α) :
    dlookup (dinsert l k v) k = some v := by
  induction l with
  | nil => simp [dinsert, dlookup]
  | cons hd rest ih =>
      rw [dinsert]
      by_cases hk : hd.1 = k
      · rw [if_pos hk, dlookup, if_pos rfl]
      · rw [if_neg hk, dlookup, if_neg hk]
        exact ih

theorem dlookup_not_mem {α : Type} {l : List (String × α)} {k : String}
    (h : k ∉ l.map Prod.fst) : dlookup l k = none := by
  induction l with
  | nil => rfl
  | cons hd rest ih =>
      rw [List.map_cons, List.mem_cons] at h
      push_neg at h
      rw [dlookup, if_neg (fun he => h.1 he.symm)]
      exact ih h.2

theorem dlookup_derase_self {α : Type} {l : List (String × α)} {k : String}
    (h : NodupKeys l) : dlookup (derase l k) k = none := by
  induction l with
  | nil => rfl
  | cons hd rest ih =>
      unfold NodupKeys at h
      rw [List.map_cons, List.nodup_cons] at h
      rw [derase]
      by_cases hk : hd.1 = k
      · rw [if_pos hk]
        exact dlookup_not_mem (hk ▸ h.1)
      · rw [if_neg hk, dlookup, if_neg hk]
        exact ih h.2

theorem derase_lookup_none {α : Type} {l : List (String × α)} {k : String}
    (h : dlookup l k = none) : derase l k = l := by
  induction l with
  | nil => rfl
  | cons hd rest ih =>
      rw [dlookup] at h
      by_cases hk : hd.1 = k
      · rw [if_pos hk] at h
        cases h
      · rw [if_neg hk] at h
        rw [derase, if_neg hk, ih h]

theorem mem_dlookup {α : Type} {l : List (String × α)} {k : String} {v : α}
    (hn : NodupKeys l) (h : (k, v) ∈ l) : dlookup l k = some v := by
  induction l with
  | nil => cases h
  | cons hd rest ih =>
      unfold NodupKeys at hn
      rw [List.map_cons, List.nodup_cons] at hn
      rcases List.mem_cons.1 h with h1 | h1
      · rw [← h1, dlookup, if_pos rfl]
      · rw [dlookup]
        by_cases hk : hd.1 = k
        · exact absurd (hk ▸ List.mem_map_of_mem Prod.fst h1) hn.1
        · rw [if_neg hk]
          exact ih hn.2 h1

theorem dlookup_filter {α : Type} {l : List (String × α)} {g : String × α → Bool}
    {k : String} (hn : NodupKeys l) :
    dlookup (l.filter g) k =
      (dlookup l k).bind (fun v => if g (k, v) then some v else none) := by
  induction l with
  | nil => rfl
  | cons hd rest ih =>
      unfold NodupKeys at hn
      rw [List.map_cons, List.nodup_cons] at hn
      by_cases hk : hd.1 = k
      · rw [List.filter_cons]
        by_cases hg : g hd
        · rw [if_pos hg, dlookup, if_pos hk, dlookup, if_pos hk]
          have : (k, hd.2) = hd := by rw [← hk]
          simp [this, hg]
        · rw [if_neg hg, dlookup, if_pos hk]
          have hno : dlookup (List.filter g rest) k = none := by
            apply dlookup_not_mem
            intro hm
            rcases List.mem_map.1 hm with ⟨kp, hkp, hfst⟩
            have h2 : kp.1 ∈ rest.map Prod.fst :=
              List.mem_map_of_mem Prod.fst (List.mem_of_mem_filter hkp)
            rw [hfst, ← hk] at h2
            exact hn.1 h2
          rw [hno]
          have : (k, hd.2) = hd := by rw [← hk]
          simp [this, hg]
      · rw [List.filter_cons]
        by_cases hg : g hd
        · rw [if_pos hg, dlookup, if_neg hk, dlookup, if_neg hk]
          exact ih hn.2
        · rw [if_neg hg, dlookup, if_neg hk]
          exact ih hn.2

/-! ## Substring and filter lemmas -/

theorem containsSub_nil_left (l : List Char) : containsSub [] l = true := by
  cases l <;> simp [containsSub, matchAt]

theorem containsSub_nil_right {q : List Char} : containsSub q [] = true ↔ q = [] := by
  cases q <;> simp [containsSub, matchAt]

theorem strIn_empty_left (s : String) : strIn "" s = true := by
  unfold strIn
  exact containsSub_nil_left s.data

theorem strIn_empty_right {q : String} (h : strIn q "" = true) :
    ∀ s : String, strIn q s = true := by
  intro s
  unfold strIn at h ⊢
  have : q.data = [] := containsSub_nil_right.1 h
  rw [this]
  exact containsSub_nil_left s.data

theorem lowerStr_empty : lowerStr "" = "" := rfl

theorem length_filter_partition {β : Type} (g : β → Bool) (l : List β) :
    (l.filter g).length + (l.filter (fun x => !(g x))).length = l.length := by
  induction l with
  | nil => rfl
  | cons hd rest ih =>
      cases hg : g hd
      · rw [List.filter_cons, List.filter_cons, if_neg (by simp [hg]),
          if_pos (by simp [hg])]
        simp only [List.length_cons]
        omega
      · rw [List.filter_cons, List.filter_cons, if_pos (by simp [hg]),
          if_neg (by simp [hg])]
        simp only [List.length_cons]
        omega

theorem length_filter_map {α β : Type} (f : α → β) (g : β → Bool) (l : List α) :
    ((l.map f).filter g).length = (l.filter (fun x => g (f x))).length := by
  induction l with
  | nil => rfl
  | cons hd rest ih =>
      rw [List.map_cons, List.filter_cons, List.filter_cons]
      by_cases hg : g (f hd)
      · rw [if_pos hg, if_pos hg, List.length_cons, List.length_cons, ih]
      · rw [if_neg hg, if_neg hg, ih]

/-! ## Cascade-delete machinery -/

theorem delete_collection_lookup_some {s : Storage} {cid : String} {c : Collection}
    (h : dlookup s.collections cid = some c) :
    Storage.delete_collection s cid =
      (true, { s with collections := derase s.collections cid }) := by
  unfold Storage.delete_collection
  rw [h]

theorem delete_collection_lookup_none {s : Storage} {cid : String}
    (h : dlookup s.collections cid = none) :
    Storage.delete_collection s cid = (false, s) := by
  unfold Storage.delete_collection
  rw [h]

theorem delete_prompt_snd (s : Storage) (pid : String) :
    (Storage.delete_prompt s pid).2 = { s with prompts := derase s.prompts pid } := by
  unfold Storage.delete_prompt
  cases h : dlookup s.prompts pid with
  | none => simp [derase_lookup_none h]
  | some p => simp

theorem foldl_delete_prompts (ps : List Prompt) (s : Storage) :
    ps.foldl (fun st p => (Storage.delete_prompt st p.id).2) s =
      { s with prompts := ps.foldl (fun acc p => derase acc p.id) s.prompts } := by
  induction ps generalizing s with
  | nil => simp
  | cons hd rest ih =>
      rw [List.foldl_cons, List.foldl_cons, delete_prompt_snd, ih]

theorem foldl_derase_cons {k : String} {w : Prompt} (ps : List Prompt)
    (l : List (String × Prompt)) (h : ∀ q ∈ ps, q.id ≠ k) :
    ps.foldl (fun acc q => derase acc q.id) ((k, w) :: l) =
      (k, w) :: ps.foldl (fun acc q => derase acc q.id) l := by
  induction ps generalizing l with
  | nil => rfl
  | cons q rest ih =>
      rw [List.foldl_cons, List.foldl_cons]
      have hq : q.id ≠ k := h q (List.mem_cons_self _ _)
      rw [derase, if_neg (fun he => hq he.symm)]
      exact ih _ (fun x hx => h x (List.mem_cons_of_mem _ hx))

theorem cascade_filter {P : Prompt → Bool} {l : List (String × Prompt)}
    (hn : NodupKeys l) (hk : Keyed Prompt.id l) :
    ((l.map Prod.snd).filter P).foldl (fun acc q => derase acc q.id) l =
      l.filter (fun kp => !(P kp.2)) := by
  induction l with
  | nil => rfl
  | cons hd rest ih =>
      obtain ⟨a, w⟩ := hd
      unfold NodupKeys at hn
      rw [List.map_cons, List.nodup_cons] at hn
      have hw : w.id = a := hk (a, w) (List.mem_cons_self _ _)
      have hk' : Keyed Prompt.id rest := fun kp hkp => hk kp (List.mem_cons_of_mem _ hkp)
      rw [List.map_cons, List.filter_cons, List.filter_cons]
      by_cases hP : P w
      · rw [if_pos hP]
        have hnotP : (!(P (a, w).2)) = false := by
          show (!(P w)) = false
          rw [hP]
          rfl
        rw [hnotP, if_neg Bool.false_ne_true, List.foldl_cons]
        have hder : derase ((a, w) :: rest) w.id = rest := by
          rw [derase, if_pos hw.symm]
        rw [hder]
        exact ih hn.2 hk'
      · rw [if_neg hP]
        have hyesP : (!(P (a, w).2)) = true := by
          show (!(P w)) = true
          rw [Bool.not_eq_true] at hP
          rw [hP]
          rfl
        rw [hyesP, if_pos rfl]
        have hids : ∀ q ∈ (rest.map Prod.snd).filter P, q.id ≠ a := by
          intro q hq he
          have hqv : q ∈ rest.map Prod.snd := List.mem_of_mem_filter hq
          rcases List.mem_map.1 hqv with ⟨kp, hkp, hsnd⟩
          have hqid : q.id = kp.1 := by
            rw [← hsnd]
            exact hk' kp hkp
          apply hn.1
          have hmm := List.mem_map_of_mem Prod.fst hkp
          rw [← he, hqid]
          exact hmm
        rw [foldl_derase_cons _ _ hids, ih hn.2 hk']

theorem delete_collection_ok {s : Storage} {cid : String} {c : Collection}
    (hn : NodupKeys s.prompts) (hk : Keyed Prompt.id s.prompts)
    (hc : Storage.get_collection s cid = some c) :
    Api.delete_collection s cid =
      ({ prompts := s.prompts.filter (fun kp => !(decide (kp.2.collection_id = some cid)))
         collections := derase s.collections cid }, Except.ok ()) := by
  unfold Api.delete_collection
  rw [foldl_delete_prompts]
  unfold Storage.get_prompts_by_collection
  rw [cascade_filter hn hk]
  have hc2 : dlookup
      ({ prompts := s.prompts.filter (fun kp => !decide (kp.2.collection_id = some cid)),
         collections := s.collections } : Storage).collections cid = some c := hc
  rw [delete_collection_lookup_some hc2]

/-! ## Update and patch characterizations -/

theorem get_prompt_keyed {s : Storage} {pid : String} {ex : Prompt}
    (hk : Keyed Prompt.id s.prompts) (h : Storage.get_prompt s pid = some ex) :
    ex.id = pid :=
  hk (pid, ex) (dlookup_mem h)

theorem update_prompt_badref {s : Storage} {pid : String} {d : PromptUpdate}
    {now : Nat} {ex : Prompt} (h : Storage.get_prompt s pid = some ex)
    (hr : refInvalid s d.collection_id = true) :
    Api.update_prompt s pid d now = (s, Except.error ApiError.InvalidReference) := by
  unfold Api.update_prompt
  rw [h]
  simp [hr]

theorem update_prompt_ok {s : Storage} {pid : String} {d : PromptUpdate}
    {now : Nat} {ex : Prompt} (h : Storage.get_prompt s pid = some ex)
    (hr : refInvalid s d.collection_id = false) :
    Api.update_prompt s pid d now =
      ({ s with prompts := dinsert s.prompts pid (replacedPrompt ex d now) },
        Except.ok (replacedPrompt ex d now)) := by
  have h' : dlookup s.prompts pid = some ex := h
  unfold Api.update_prompt Storage.update_prompt
  rw [h]
  simp [hr, h']

theorem update_prompt_ok_inv {s : Storage} {pid : String} {d : PromptUpdate}
    {now : Nat} {ex : Prompt} {s' : Storage} {q : Prompt}
    (h : Storage.get_prompt s pid = some ex)
    (hp : Api.update_prompt s pid d now = (s', Except.ok q)) :
    refInvalid s d.collection_id = false ∧
      q = replacedPrompt ex d now ∧
      s' = { s with prompts := dinsert s.prompts pid q } := by
  cases hr : refInvalid s d.collection_id with
  | true =>
      rw [update_prompt_badref h hr] at hp
      simp at hp
  | false =>
      rw [update_prompt_ok h hr] at hp
      rw [Prod.mk.injEq] at hp
      obtain ⟨hs, hq⟩ := hp
      cases hq
      exact ⟨rfl, rfl, hs.symm⟩

theorem patch_prompt_badref {s : Storage} {pid : String} {d : PromptPatch}
    {now : Nat} {ex : Prompt} (h : Storage.get_prompt s pid = some ex)
    (hc : patchCid s ex.collection_id d.collection_id = none) :
    Api.patch_prompt s pid d now = (s, Except.error ApiError.InvalidReference) := by
  unfold Api.patch_prompt
  rw [h]
  simp [hc]

theorem patch_prompt_ok {s : Storage} {pid : String} {d : PromptPatch}
    {now : Nat} {ex : Prompt} {newCid : Option String}
    (h : Storage.get_prompt s pid = some ex)
    (hc : patchCid s ex.collection_id d.collection_id = some newCid) :
    Api.patch_prompt s pid d now =
      ({ s with prompts := dinsert s.prompts pid (mergedPrompt ex d newCid now) },
        Except.ok (mergedPrompt ex d newCid now)) := by
  have h' : dlookup s.prompts pid = some ex := h
  unfold Api.patch_prompt Storage.update_prompt
  rw [h]
  simp [hc, h']

theorem patch_prompt_ok_inv {s : Storage} {pid : String} {d : PromptPatch}
    {now : Nat} {ex : Prompt} {s' : Storage} {q : Prompt}
    (h : Storage.get_prompt s pid = some ex)
    (hp : Api.patch_prompt s pid d now = (s', Except.ok q)) :
    ∃ newCid, patchCid s ex.collection_id d.collection_id = some newCid ∧
      q = mergedPrompt ex d newCid now ∧
      s' = { s with prompts := dinsert s.prompts pid q } := by
  cases hc : patchCid s ex.collection_id d.collection_id with
  | none =>
      rw [patch_prompt_badref h hc] at hp
      simp at hp
  | some newCid =>
      rw [patch_prompt_ok h hc] at hp
      rw [Prod.mk.injEq] at hp
      obtain ⟨hs, hq⟩ := hp
      cases hq
      exact ⟨newCid, rfl, rfl, hs.symm⟩

/-! ## Claim theorems -/

/-- C1: for every stored prompt and every full-update or patch request whose
supplied `collection_id` is non-empty and does not resolve to an existing
collection, the operation signals `InvalidReference` and the whole store —
in particular the stored prompt, every field of it including `updated_at` —
is left exactly as it was before the call. -/
theorem update_patch_bad_reference_atomic :
    (∀ (s : Storage) (pid : String) (d : PromptUpdate) (now : Nat) (ex : Prompt)
        (cid : String),
      Storage.get_prompt s pid = some ex →
      d.collection_id = some cid → cid ≠ "" →
      Storage.get_collection s cid = none →
      Api.update_prompt s pid d now = (s, Except.error ApiError.InvalidReference)) ∧
    (∀ (s : Storage) (pid : String) (d : PromptPatch) (now : Nat) (ex : Prompt)
        (cid : String),
      Storage.get_prompt s pid = some ex →
      d.collection_id = some (some cid) → cid ≠ "" →
      Storage.get_collection s cid = none →
      Api.patch_prompt s pid d now = (s, Except.error ApiError.InvalidReference)) := by
  constructor
  · intro s pid d now ex cid h hd hne hnone
    apply update_prompt_badref h
    rw [hd]
    simp only [refInvalid]
    rw [if_neg hne, hnone]
    rfl
  · intro s pid d now ex cid h hd hne hnone
    apply patch_prompt_badref h
    rw [hd]
    simp only [patchCid]
    rw [if_neg hne, hnone]

/-- Witness for C1 at a concrete store: an update and a patch of `p1` whose
`collection_id` is the unknown id `zz` both fail with `InvalidReference` and
return the store unchanged. -/
theorem update_patch_bad_reference_atomic_witness :
    Api.update_prompt sampleStore "p1" dBadUpdate 9
        = (sampleStore, Except.error ApiError.InvalidReference) ∧
    Api.patch_prompt sampleStore "p1" dBadPatch 9
        = (sampleStore, Except.error ApiError.InvalidReference) :=
  ⟨update_patch_bad_reference_atomic.1 sampleStore "p1" dBadUpdate 9 pMember "zz"
      rfl rfl (by decide) rfl,
    update_patch_bad_reference_atomic.2 sampleStore "p1" dBadPatch 9 pMember "zz"
      rfl rfl (by decide) rfl⟩

/-- C6: for every existing prompt and every full-update request that passes
the handler's reference check, the stored result carries exactly the
supplied `title`, `content`, `description` and `collection_id` (empty and
absent optional values included), keeps `id` and `created_at` from the
existing record, and has `updated_at` set to the current time. -/
theorem full_update_replaces_fields :
    ∀ (s : Storage) (pid : String) (d : PromptUpdate) (now : Nat) (ex : Prompt),
      Storage.get_prompt s pid = some ex →
      refInvalid s d.collection_id = false →
      ∃ s' q, Api.update_prompt s pid d now = (s', Except.ok q) ∧
        q.title = d.title ∧ q.content = d.content ∧
        q.description = d.description ∧ q.collection_id = d.collection_id ∧
        q.id = ex.id ∧ q.created_at = ex.created_at ∧ q.updated_at = now ∧
        Storage.get_prompt s' pid = some q := by
  intro s pid d now ex h hr
  refine ⟨_, _, update_prompt_ok h hr, rfl, rfl, rfl, rfl, rfl, rfl, rfl, ?_⟩
  exact dlookup_dinsert_self s.prompts pid (replacedPrompt ex d now)

/-- Witness for C6: a full update of `p1` clearing description and
collection gives exactly the supplied fields with preserved id and
creation time. -/
theorem full_update_replaces_fields_witness :
    ∃ s' q, Api.update_prompt sampleStore "p1" dGoodUpdate 9 = (s', Except.ok q) ∧
      q.title = dGoodUpdate.title ∧ q.content = dGoodUpdate.content ∧
      q.description = dGoodUpdate.description ∧
      q.collection_id = dGoodUpdate.collection_id ∧
      q.id = pMember.id ∧ q.created_at = pMember.created_at ∧ q.updated_at = 9 ∧
      Storage.get_prompt s' "p1" = some q :=
  full_update_replaces_fields sampleStore "p1" dGoodUpdate 9 pMember rfl rfl

/-- C3: for every existing prompt and every successful patch, a
non-`collection_id` field supplied as the empty string leaves that field of
the stored prompt unchanged, a field absent from the patch keeps its
existing value, and `updated_at` is set to the current time even when no
field value changed.  The resulting record is what is stored. -/
theorem patch_empty_string_no_change :
    ∀ (s : Storage) (pid : String) (d : PromptPatch) (now : Nat) (ex : Prompt)
      (s' : Storage) (q : Prompt),
      Storage.get_prompt s pid = some ex →
      Api.patch_prompt s pid d now = (s', Except.ok q) →
      q.updated_at = now ∧
      Storage.get_prompt s' pid = some q ∧
      (d.title = some (some "") → q.title = ex.title) ∧
      (d.title = none → q.title = ex.title) ∧
      (d.content = some (some "") → q.content = ex.content) ∧
      (d.content = none → q.content = ex.content) ∧
      (d.description = some (some "") → q.description = ex.description) ∧
      (d.description = none → q.description = ex.description) ∧
      (d.collection_id = none → q.collection_id = ex.collection_id) := by
  intro s pid d now ex s' q h hp
  obtain ⟨newCid, hc, hq, hs⟩ := patch_prompt_ok_inv h hp
  subst hq
  subst hs
  refine ⟨rfl, dlookup_dinsert_self _ _ _, ?_, ?_, ?_, ?_, ?_, ?_, ?_⟩
  · intro ht
    show mergeReq ex.title d.title = ex.title
    rw [ht]
    rfl
  · intro ht
    show mergeReq ex.title d.title = ex.title
    rw [ht]
    rfl
  · intro ht
    show mergeReq ex.content d.content = ex.content
    rw [ht]
    rfl
  · intro ht
    show mergeReq ex.content d.content = ex.content
    rw [ht]
    rfl
  · intro ht
    show mergeOpt ex.description d.description = ex.description
    rw [ht]
    rfl
  · intro ht
    show mergeOpt ex.description d.description = ex.description
    rw [ht]
    rfl
  · intro ht
    rw [ht] at hc
    unfold patchCid at hc
    cases hc
    rfl

/-- Witness for C3: patching `p1` with `title=""`, `description=""` and no
other field keeps title and description and refreshes `updated_at`. -/
theorem patch_empty_string_no_change_witness :
    ∃ s' q, Api.patch_prompt sampleStore "p1" dEmptyPatch 9 = (s', Except.ok q) ∧
      q.updated_at = 9 ∧ q.title = pMember.title ∧
      q.description = pMember.description := by
  have h := patch_empty_string_no_change sampleStore "p1" dEmptyPatch 9 pMember
      (Api.patch_prompt sampleStore "p1" dEmptyPatch 9).1
      (mergedPrompt pMember dEmptyPatch pMember.collection_id 9) rfl rfl
  exact ⟨(Api.patch_prompt sampleStore "p1" dEmptyPatch 9).1,
    mergedPrompt pMember dEmptyPatch pMember.collection_id 9, rfl,
    h.1, h.2.2.1 rfl, h.2.2.2.2.2.2.1 rfl⟩

/-- C9: a patch can never clear `collection_id`: when the patch's
`collection_id` is omitted, explicitly null, or the empty string, the stored
result keeps the previous `collection_id`; detaching is possible through a
full update that supplies no `collection_id`, which stores `none`. -/
theorem patch_cannot_clear_collection_id :
    (∀ (s : Storage) (pid : String) (d : PromptPatch) (now : Nat) (ex : Prompt)
        (s' : Storage) (q : Prompt),
      Storage.get_prompt s pid = some ex →
      (d.collection_id = none ∨ d.collection_id = some none ∨
        d.collection_id = some (some "")) →
      Api.patch_prompt s pid d now = (s', Except.ok q) →
      q.collection_id = ex.collection_id) ∧
    (∀ (s : Storage) (pid : String) (d : PromptUpdate) (now : Nat) (ex : Prompt)
        (s' : Storage) (q : Prompt),
      Storage.get_prompt s pid = some ex →
      d.collection_id = none →
      Api.update_prompt s pid d now = (s', Except.ok q) →
      q.collection_id = none) := by
  constructor
  · intro s pid d now ex s' q h hcid hp
    obtain ⟨newCid, hc, hq, _⟩ := patch_prompt_ok_inv h hp
    subst hq
    show newCid = ex.collection_id
    rcases hcid with h1 | h1 | h1
    · rw [h1] at hc
      simp only [patchCid] at hc
      cases hc
      rfl
    · rw [h1] at hc
      simp only [patchCid] at hc
      cases hc
      rfl
    · rw [h1] at hc
      simp only [patchCid] at hc
      rw [if_pos trivial] at hc
      cases hc
      rfl
  · intro s pid d now ex s' q h hcid hp
    obtain ⟨_, hq, _⟩ := update_prompt_ok_inv h hp
    subst hq
    show d.collection_id = none
    exact hcid

/-- Witness for C9: patching `p1` with no `collection_id` field keeps its
collection, and a full update with `collection_id` absent stores `none`. -/
theorem patch_cannot_clear_collection_id_witness :
    (mergedPrompt pMember dEmptyPatch pMember.collection_id 9).collection_id
        = pMember.collection_id ∧
    (replacedPrompt pMember dGoodUpdate 9).collection_id = none :=
  ⟨patch_cannot_clear_collection_id.1 sampleStore "p1" dEmptyPatch 9 pMember
      (Api.patch_prompt sampleStore "p1" dEmptyPatch 9).1
      (mergedPrompt pMember dEmptyPatch pMember.collection_id 9) rfl
      (Or.inl rfl) rfl,
    patch_cannot_clear_collection_id.2 sampleStore "p1" dGoodUpdate 9 pMember
      (Api.update_prompt sampleStore "p1" dGoodUpdate 9).1
      (replacedPrompt pMember dGoodUpdate 9) rfl rfl rfl⟩

theorem get_prompt_none {s : Storage} {pid : String}
    (h : dlookup s.prompts pid = none) :
    Api.get_prompt s pid = Except.error ApiError.NotFound := by
  unfold Api.get_prompt Storage.get_prompt
  rw [h]

/-- C2: deleting an existing collection removes exactly the stored prompts
whose `collection_id` equals the collection's id (the prompts dict becomes
its own filtration by the complement, so no other prompt is touched and with
zero members nothing but the collection is removed), then removes the
collection; a lookup of any removed member's id afterwards answers
`NotFound`.  The `NodupKeys`/`Keyed` hypotheses say the store is a
well-formed pair of id-keyed Python dicts, which the storage layer
guarantees for every reachable state. -/
theorem delete_collection_cascades_exactly :
    ∀ (s : Storage) (cid : String) (c : Collection),
      NodupKeys s.prompts → Keyed Prompt.id s.prompts →
      NodupKeys s.collections →
      Storage.get_collection s cid = some c →
      (Api.delete_collection s cid).2 = Except.ok () ∧
      (Api.delete_collection s cid).1.prompts
          = s.prompts.filter (fun kp => !decide (kp.2.collection_id = some cid)) ∧
      (Api.delete_collection s cid).1.collections = derase s.collections cid ∧
      Storage.get_collection (Api.delete_collection s cid).1 cid = none ∧
      (∀ p ∈ Storage.get_prompts_by_collection s cid,
        Api.get_prompt (Api.delete_collection s cid).1 p.id
          = Except.error ApiError.NotFound) ∧
      (Api.delete_collection s cid).1.prompts.length
          + (Storage.get_prompts_by_collection s cid).length = s.prompts.length := by
  intro s cid c hn hk hnc hc
  rw [delete_collection_ok hn hk hc]
  refine ⟨rfl, rfl, rfl, dlookup_derase_self hnc, ?_, ?_⟩
  · intro p hp
    unfold Storage.get_prompts_by_collection at hp
    rw [List.mem_filter] at hp
    have hPp : decide (p.collection_id = some cid) = true := hp.2
    have hpv : p ∈ s.prompts.map Prod.snd := hp.1
    rcases List.mem_map.1 hpv with ⟨kp, hkp, hsnd⟩
    have hid : p.id = kp.1 := by
      rw [← hsnd]
      exact hk kp hkp
    have hmem : (p.id, p) ∈ s.prompts := by
      rw [hid, ← hsnd]
      exact hkp
    have hl : dlookup s.prompts p.id = some p := mem_dlookup hn hmem
    apply get_prompt_none
    show dlookup (s.prompts.filter
        (fun kp => !decide (kp.2.collection_id = some cid))) p.id = none
    rw [dlookup_filter hn, hl]
    have hff : (!decide (p.collection_id = some cid)) = false := by
      rw [hPp]
      rfl
    simp [hff]
    exact of_decide_eq_true hPp
  · have h1 := length_filter_partition
      (fun kp : String × Prompt => decide (kp.2.collection_id = some cid)) s.prompts
    have h2 := length_filter_map Prod.snd
      (fun p : Prompt => decide (p.collection_id = some cid)) s.prompts
    unfold Storage.get_prompts_by_collection
    show (s.prompts.filter (fun kp => !decide (kp.2.collection_id = some cid))).length
        + ((s.prompts.map Prod.snd).filter
            (fun p => decide (p.collection_id = some cid))).length
        = s.prompts.length
    omega

/-- Witness for C2: deleting `c1` from the sample store succeeds, and the
lookup of the removed member `p1` afterwards answers `NotFound`, while the
loose prompt `p2` survives. -/
theorem delete_collection_cascades_exactly_witness :
    (Api.delete_collection sampleStore "c1").2 = Except.ok () ∧
    Api.get_prompt (Api.delete_collection sampleStore "c1").1 "p1"
        = Except.error ApiError.NotFound ∧
    (Api.delete_collection sampleStore "c1").1.prompts.length + 1
        = sampleStore.prompts.length := by
  have h := delete_collection_cascades_exactly sampleStore "c1" cSample
    (by decide) (by decide) (by decide) rfl
  exact ⟨h.1, h.2.2.2.2.1 pMember (by decide), h.2.2.2.2.2⟩

/-- C4 counterexample: in `danglingStore` the id `c1` is not a key of the
collections dict, yet a prompt references it; `delete_collection` deletes
that prompt before performing the existence check, so the call signals
`NotFound` AND mutates the prompts dict — the claim's "no observable
mutation, for every store state" is false as stated. -/
theorem delete_missing_collection_counterexample :
    (Api.delete_collection danglingStore "c1").2 = Except.error ApiError.NotFound ∧
    (Api.delete_collection danglingStore "c1").1.prompts ≠ danglingStore.prompts := by
  constructor
  · rfl
  · decide

/-- C4 (amended): for every store state in which no stored prompt references
the given id — which includes every state reachable through the API, since
the handlers enforce referential integrity — deleting a collection id that
is not a key of the collections dict signals `NotFound` and leaves the
entire store unchanged. -/
theorem delete_missing_collection_no_mutation :
    ∀ (s : Storage) (cid : String),
      Storage.get_collection s cid = none →
      (∀ kp ∈ s.prompts, kp.2.collection_id ≠ some cid) →
      Api.delete_collection s cid = (s, Except.error ApiError.NotFound) := by
  intro s cid hc hno
  have hmem : Storage.get_prompts_by_collection s cid = [] := by
    unfold Storage.get_prompts_by_collection
    rw [List.filter_eq_nil_iff]
    intro p hp hdec
    rcases List.mem_map.1 hp with ⟨kp, hkp, hsnd⟩
    have hne := hno kp hkp
    rw [hsnd] at hne
    exact hne (of_decide_eq_true hdec)
  unfold Api.delete_collection
  rw [hmem, List.foldl_nil, delete_collection_lookup_none hc]

/-- Witness for C4 (amended): deleting the unknown collection id `zz` from
the sample store reports `NotFound` and returns the store unchanged. -/
theorem delete_missing_collection_no_mutation_witness :
    Api.delete_collection sampleStore "zz"
        = (sampleStore, Except.error ApiError.NotFound) :=
  delete_missing_collection_no_mutation sampleStore "zz" rfl (by decide)

/-! ## Search and sort -/

theorem search_prompts_eq_filter (l : List Prompt) (query : String) :
    search_prompts l query = l.filter (fun p =>
      strIn (lowerStr query) (lowerStr p.title) ||
        (match p.description with
         | some d => decide (d ≠ "") && strIn (lowerStr query) (lowerStr d)
         | none => false)) := rfl

theorem matches_eq_spec (query : String) (p : Prompt) :
    (strIn (lowerStr query) (lowerStr p.title) ||
      (match p.description with
       | some d => decide (d ≠ "") && strIn (lowerStr query) (lowerStr d)
       | none => false)) = specMatches query p := by
  unfold specMatches
  cases hdesc : p.description with
  | none => rfl
  | some d =>
      dsimp only
      by_cases hd : d = ""
      · subst hd
        have h0 : decide (("" : String) ≠ "") = false := by decide
        rw [h0, Bool.false_and, Bool.or_false]
        cases hX : strIn (lowerStr query) (lowerStr "") with
        | false => rw [Bool.or_false]
        | true =>
            rw [lowerStr_empty] at hX
            have ht := strIn_empty_right hX (lowerStr p.title)
            rw [ht]
            rfl
      · have h1 : decide (d ≠ "") = true := by
          rw [decide_eq_true_eq]
          exact hd
        rw [h1, Bool.true_and]

/-- C7: search returns exactly the prompts, in their original relative
order, for which the lowercased query occurs in the lowercased title or —
when the prompt has a description — in the lowercased description; prompts
with no description are matched on the title only, and the empty-string
query returns the whole input list unchanged. -/
theorem search_prompts_spec :
    ∀ (l : List Prompt) (query : String),
      search_prompts l query = l.filter (specMatches query) ∧
      List.Sublist (search_prompts l query) l ∧
      (∀ p, p ∈ search_prompts l query ↔ p ∈ l ∧
        (strIn (lowerStr query) (lowerStr p.title) = true ∨
          ∃ d, p.description = some d ∧
            strIn (lowerStr query) (lowerStr d) = true)) ∧
      search_prompts l "" = l := by
  intro l query
  have hfil : search_prompts l query = l.filter (specMatches query) := by
    rw [search_prompts_eq_filter]
    exact List.filter_congr (fun p _ => matches_eq_spec query p)
  refine ⟨hfil, ?_, ?_, ?_⟩
  · rw [search_prompts_eq_filter]
    exact List.filter_sublist l
  · intro p
    rw [hfil, List.mem_filter]
    apply and_congr_right
    intro _
    unfold specMatches
    cases p.description with
    | none => simp
    | some d => simp
  · rw [search_prompts_eq_filter]
    apply List.filter_eq_self.mpr
    intro p _
    rw [lowerStr_empty, strIn_empty_left, Bool.true_or]

/-- C8: for either direction, sorting by date returns a permutation of the
input that is ordered by `created_at` (descending when the flag is set,
ascending otherwise) and stable: two prompts with identical `created_at`
keep their relative input order. -/
theorem sort_prompts_by_date_spec :
    ∀ (l : List Prompt) (descending : Bool),
      List.Perm (sort_prompts_by_date l descending) l ∧
      (descending = true →
        (sort_prompts_by_date l descending).Pairwise
          (fun a b => b.created_at ≤ a.created_at)) ∧
      (descending = false →
        (sort_prompts_by_date l descending).Pairwise
          (fun a b => a.created_at ≤ b.created_at)) ∧
      (∀ a b, a.created_at = b.created_at → List.Sublist [a, b] l →
        List.Sublist [a, b] (sort_prompts_by_date l descending)) := by
  have htransD : ∀ a b c : Prompt, leDesc a b → leDesc b c → leDesc a c := by
    intro a b c hab hbc
    unfold leDesc at *
    rw [decide_eq_true_eq] at *
    omega
  have htotalD : ∀ a b : Prompt, leDesc a b || leDesc b a := by
    intro a b
    unfold leDesc
    rcases Nat.le_total b.created_at a.created_at with h | h <;> simp [h]
  have htransA : ∀ a b c : Prompt, leAsc a b → leAsc b c → leAsc a c := by
    intro a b c hab hbc
    unfold leAsc at *
    rw [decide_eq_true_eq] at *
    omega
  have htotalA : ∀ a b : Prompt, leAsc a b || leAsc b a := by
    intro a b
    unfold leAsc
    rcases Nat.le_total a.created_at b.created_at with h | h <;> simp [h]
  intro l descending
  cases descending with
  | true =>
      have hs : sort_prompts_by_date l true = l.mergeSort leDesc := by
        unfold sort_prompts_by_date
        rw [if_pos rfl]
      rw [hs]
      refine ⟨List.mergeSort_perm l leDesc, fun _ => ?_, fun h => ?_, ?_⟩
      · exact (List.sorted_mergeSort htransD htotalD l).imp
          (fun h => of_decide_eq_true h)
      · cases h
      · intro a b heq hsub
        have hab : leDesc a b := by
          unfold leDesc
          rw [heq]
          simp
        exact List.pair_sublist_mergeSort htransD htotalD hab hsub
  | false =>
      have hs : sort_prompts_by_date l false = l.mergeSort leAsc := by
        unfold sort_prompts_by_date
        rw [if_neg Bool.false_ne_true]
      rw [hs]
      refine ⟨List.mergeSort_perm l leAsc, fun h => ?_, fun _ => ?_, ?_⟩
      · cases h
      · exact (List.sorted_mergeSort htransA htotalA l).imp
          (fun h => of_decide_eq_true h)
      · intro a b heq hsub
        have hab : leAsc a b := by
          unfold leAsc
          rw [heq]
          simp
        exact List.pair_sublist_mergeSort htransA htotalA hab hsub

/-- Witness for C8: the two sample prompts share `created_at = 3` and keep
their input order after a descending sort. -/
theorem sort_prompts_by_date_spec_witness :
    List.Sublist [pMember, pLoose] (sort_prompts_by_date [pMember, pLoose] true) :=
  (sort_prompts_by_date_spec [pMember, pLoose] true).2.2.2 pMember pLoose rfl
    (List.Sublist.refl _)

/-! ## The operation machine preserves the store invariants -/

theorem nodupkeys_sublist {α : Type} {l' l : List (String × α)}
    (hs : List.Sublist l' l) (h : NodupKeys l) : NodupKeys l' :=
  List.Nodup.sublist (List.Sublist.map Prod.fst hs) h

theorem keyed_sublist {α : Type} {f : α → String} {l' l : List (String × α)}
    (hs : List.Sublist l' l) (h : Keyed f l) : Keyed f l' :=
  fun kp hkp => h kp (List.Sublist.mem hkp hs)

theorem foldl_derase_sublist (ps : List Prompt) (l : List (String × Prompt)) :
    List.Sublist (ps.foldl (fun acc p => derase acc p.id) l) l := by
  induction ps generalizing l with
  | nil => exact List.Sublist.refl l
  | cons hd rest ih =>
      exact List.Sublist.trans (ih (derase l hd.id)) (derase_sublist l hd.id)

theorem create_prompt_invalid {s : Storage} {d : PromptCreate} {newId : String}
    {now : Nat} (hr : refInvalid s d.collection_id = true) :
    Api.create_prompt s d newId now = (s, Except.error ApiError.InvalidReference) := by
  unfold Api.create_prompt
  rw [hr]
  simp

theorem create_prompt_valid {s : Storage} {d : PromptCreate} {newId : String}
    {now : Nat} (hr : refInvalid s d.collection_id = false) :
    Api.create_prompt s d newId now =
      (Storage.create_prompt s (createdPrompt d newId now),
        Except.ok (createdPrompt d newId now)) := by
  unfold Api.create_prompt
  rw [hr]
  simp

theorem update_prompt_missing {s : Storage} {pid : String} {d : PromptUpdate}
    {now : Nat} (h : Storage.get_prompt s pid = none) :
    Api.update_prompt s pid d now = (s, Except.error ApiError.NotFound) := by
  unfold Api.update_prompt
  rw [h]

theorem patch_prompt_missing {s : Storage} {pid : String} {d : PromptPatch}
    {now : Nat} (h : Storage.get_prompt s pid = none) :
    Api.patch_prompt s pid d now = (s, Except.error ApiError.NotFound) := by
  unfold Api.patch_prompt
  rw [h]

theorem api_delete_prompt_fst (s : Storage) (pid : String) :
    (Api.delete_prompt s pid).1 = { s with prompts := derase s.prompts pid } := by
  rw [← delete_prompt_snd s pid]
  unfold Api.delete_prompt
  cases hds : Storage.delete_prompt s pid with
  | mk b s' => cases b <;> rfl

theorem api_delete_collection_fst (s : Storage) (cid : String) :
    (Api.delete_collection s cid).1 =
      { prompts := (Storage.get_prompts_by_collection s cid).foldl
          (fun acc p => derase acc p.id) s.prompts
        collections := derase s.collections cid } := by
  unfold Api.delete_collection
  rw [foldl_delete_prompts]
  cases hd : dlookup s.collections cid with
  | some c =>
      have hd2 : dlookup
          ({ prompts := (Storage.get_prompts_by_collection s cid).foldl
              (fun acc p => derase acc p.id) s.prompts,
             collections := s.collections } : Storage).collections cid = some c := hd
      rw [delete_collection_lookup_some hd2]
  | none =>
      have hd2 : dlookup
          ({ prompts := (Storage.get_prompts_by_collection s cid).foldl
              (fun acc p => derase acc p.id) s.prompts,
             collections := s.collections } : Storage).collections cid = none := hd
      rw [delete_collection_lookup_none hd2]
      show _ = ({ prompts := _, collections := derase s.collections cid } : Storage)
      rw [derase_lookup_none hd]

theorem inv_step (s : Storage) (op : ApiOp) (h : Inv s) : Inv (ApiOp.step s op) := by
  obtain ⟨hnp, hkp, hnc, hkc⟩ := h
  cases op with
  | createPrompt d newId now =>
      show Inv (Api.create_prompt s d newId now).1
      cases hr : refInvalid s d.collection_id with
      | true =>
          rw [create_prompt_invalid hr]
          exact ⟨hnp, hkp, hnc, hkc⟩
      | false =>
          rw [create_prompt_valid hr]
          exact ⟨nodup_dinsert hnp, keyed_dinsert hkp rfl, hnc, hkc⟩
  | getPrompt pid => exact ⟨hnp, hkp, hnc, hkc⟩
  | updatePrompt pid d now =>
      show Inv (Api.update_prompt s pid d now).1
      cases hg : Storage.get_prompt s pid with
      | none =>
          rw [update_prompt_missing hg]
          exact ⟨hnp, hkp, hnc, hkc⟩
      | some ex =>
          cases hr : refInvalid s d.collection_id with
          | true =>
              rw [update_prompt_badref hg hr]
              exact ⟨hnp, hkp, hnc, hkc⟩
          | false =>
              rw [update_prompt_ok hg hr]
              refine ⟨nodup_dinsert hnp, ?_, hnc, hkc⟩
              apply keyed_dinsert hkp
              show ex.id = pid
              exact get_prompt_keyed hkp hg
  | patchPrompt pid d now =>
      show Inv (Api.patch_prompt s pid d now).1
      cases hg : Storage.get_prompt s pid with
      | none =>
          rw [patch_prompt_missing hg]
          exact ⟨hnp, hkp, hnc, hkc⟩
      | some ex =>
          cases hc : patchCid s ex.collection_id d.collection_id with
          | none =>
              rw [patch_prompt_badref hg hc]
              exact ⟨hnp, hkp, hnc, hkc⟩
          | some newCid =>
              rw [patch_prompt_ok hg hc]
              refine ⟨nodup_dinsert hnp, ?_, hnc, hkc⟩
              apply keyed_dinsert hkp
              show ex.id = pid
              exact get_prompt_keyed hkp hg
  | deletePrompt pid =>
      show Inv (Api.delete_prompt s pid).1
      rw [api_delete_prompt_fst]
      exact ⟨nodupkeys_sublist (derase_sublist _ _) hnp,
        keyed_sublist (derase_sublist _ _) hkp, hnc, hkc⟩
  | createCollection d newId now =>
      show Inv (Api.create_collection s d newId now).1
      exact ⟨hnp, hkp, nodup_dinsert hnc, keyed_dinsert hkc rfl⟩
  | getCollection cid => exact ⟨hnp, hkp, hnc, hkc⟩
  | deleteCollection cid =>
      show Inv (Api.delete_collection s cid).1
      rw [api_delete_collection_fst]
      exact ⟨nodupkeys_sublist (foldl_derase_sublist _ _) hnp,
        keyed_sublist (foldl_derase_sublist _ _) hkp,
        nodupkeys_sublist (derase_sublist _ _) hnc,
        keyed_sublist (derase_sublist _ _) hkc⟩

theorem inv_runOps (ops : List ApiOp) : Inv (runOps ops) := by
  have hgen : ∀ s, Inv s → Inv (ops.foldl ApiOp.step s) := by
    induction ops with
    | nil => exact fun s h => h
    | cons op rest ih => exact fun s h => ih _ (inv_step s op h)
  refine hgen Storage.empty ⟨List.nodup_nil, ?_, List.nodup_nil, ?_⟩
  · intro kp hkp
    cases hkp
  · intro kc hkc
    cases hkc

theorem get_prompt_ok_inv {s : Storage} {pid : String} {p : Prompt}
    (h : Api.get_prompt s pid = Except.ok p) :
    Storage.get_prompt s pid = some p := by
  revert h
  unfold Api.get_prompt
  cases hg : Storage.get_prompt s pid with
  | none =>
      intro h
      cases h
  | some q =>
      intro h
      cases h
      rfl

theorem get_collection_ok_inv {s : Storage} {cid : String} {c : Collection}
    (h : Api.get_collection s cid = Except.ok c) :
    Storage.get_collection s cid = some c := by
  revert h
  unfold Api.get_collection
  cases hg : Storage.get_collection s cid with
  | none =>
      intro h
      cases h
  | some e =>
      intro h
      cases h
      rfl

/-- C10: starting from the empty store, every sequence of API requests
preserves the invariant that each key of the prompts dict equals the `id`
of the prompt stored under it and each key of the collections dict equals
the `id` of the collection stored under it; hence every successful
`get_prompt` or `get_collection` answers an entity whose id field equals
the requested id. -/
theorem store_keys_match_ids :
    ∀ ops : List ApiOp,
      (∀ kp ∈ (runOps ops).prompts, kp.2.id = kp.1) ∧
      (∀ kc ∈ (runOps ops).collections, kc.2.id = kc.1) ∧
      (∀ pid p, Api.get_prompt (runOps ops) pid = Except.ok p → p.id = pid) ∧
      (∀ cid c, Api.get_collection (runOps ops) cid = Except.ok c → c.id = cid) := by
  intro ops
  obtain ⟨hnp, hkp, hnc, hkc⟩ := inv_runOps ops
  refine ⟨hkp, hkc, ?_, ?_⟩
  · intro pid p hga
    exact get_prompt_keyed hkp (get_prompt_ok_inv hga)
  · intro cid c hga
    exact hkc (cid, c) (dlookup_mem (get_collection_ok_inv hga))

/-- Witness for C10: after the concrete two-request trace `opsW`, getting
`p9` answers a prompt whose id field is `p9`. -/
theorem store_keys_match_ids_witness :
    (createdPrompt dW "p9" 2).id = "p9" :=
  (store_keys_match_ids opsW).2.2.1 "p9" (createdPrompt dW "p9" 2) rfl

/-! ## Timestamp machinery -/

theorem times_mono {b b' : Nat} (hbb : b ≤ b') {s : Storage}
    (ht : TimesOK b s) : TimesOK b' s :=
  fun kp hkp => ⟨(ht kp hkp).1, Nat.le_trans (ht kp hkp).2 hbb⟩

theorem times_step_some {op : ApiOp} {t : Nat} (hop : ApiOp.time op = some t)
    {s : Storage} {b : Nat} (ht : TimesOK b s) (hbt : b ≤ t) :
    TimesOK t (ApiOp.step s op) := by
  cases op with
  | createPrompt d newId now =>
      simp only [ApiOp.time] at hop
      have hnow := Option.some.inj hop
      subst hnow
      show TimesOK now (Api.create_prompt s d newId now).1
      cases hr : refInvalid s d.collection_id with
      | true =>
          rw [create_prompt_invalid hr]
          exact times_mono hbt ht
      | false =>
          rw [create_prompt_valid hr]
          intro kp hkp
          rcases mem_dinsert hkp with hm | hm
          · exact ⟨(ht kp hm).1, Nat.le_trans (ht kp hm).2 hbt⟩
          · rw [hm]
            exact ⟨Nat.le_refl now, Nat.le_refl now⟩
  | updatePrompt pid d now =>
      simp only [ApiOp.time] at hop
      have hnow := Option.some.inj hop
      subst hnow
      show TimesOK now (Api.update_prompt s pid d now).1
      cases hg : Storage.get_prompt s pid with
      | none =>
          rw [update_prompt_missing hg]
          exact times_mono hbt ht
      | some ex =>
          cases hr : refInvalid s d.collection_id with
          | true =>
              rw [update_prompt_badref hg hr]
              exact times_mono hbt ht
          | false =>
              rw [update_prompt_ok hg hr]
              intro kp hkp
              rcases mem_dinsert hkp with hm | hm
              · exact ⟨(ht kp hm).1, Nat.le_trans (ht kp hm).2 hbt⟩
              · have hex := ht (pid, ex) (dlookup_mem hg)
                rw [hm]
                exact ⟨Nat.le_trans (Nat.le_trans hex.1 hex.2) hbt, Nat.le_refl now⟩
  | patchPrompt pid d now =>
      simp only [ApiOp.time] at hop
      have hnow := Option.some.inj hop
      subst hnow
      show TimesOK now (Api.patch_prompt s pid d now).1
      cases hg : Storage.get_prompt s pid with
      | none =>
          rw [patch_prompt_missing hg]
          exact times_mono hbt ht
      | some ex =>
          cases hc : patchCid s ex.collection_id d.collection_id with
          | none =>
              rw [patch_prompt_badref hg hc]
              exact times_mono hbt ht
          | some newCid =>
              rw [patch_prompt_ok hg hc]
              intro kp hkp
              rcases mem_dinsert hkp with hm | hm
              · exact ⟨(ht kp hm).1, Nat.le_trans (ht kp hm).2 hbt⟩
              · have hex := ht (pid, ex) (dlookup_mem hg)
                rw [hm]
                exact ⟨Nat.le_trans (Nat.le_trans hex.1 hex.2) hbt, Nat.le_refl now⟩
  | createCollection d newId now =>
      simp only [ApiOp.time] at hop
      have hnow := Option.some.inj hop
      subst hnow
      show TimesOK now (Api.create_collection s d newId now).1
      intro kp hkp
      exact ⟨(ht kp hkp).1, Nat.le_trans (ht kp hkp).2 hbt⟩
  | getPrompt pid => simp [ApiOp.time] at hop
  | getCollection cid => simp [ApiOp.time] at hop
  | deletePrompt pid => simp [ApiOp.time] at hop
  | deleteCollection cid => simp [ApiOp.time] at hop

theorem times_step_none {op : ApiOp} (hop : ApiOp.time op = none)
    {s : Storage} {b : Nat} (ht : TimesOK b s) : TimesOK b (ApiOp.step s op) := by
  cases op with
  | getPrompt pid => exact ht
  | getCollection cid => exact ht
  | deletePrompt pid =>
      show TimesOK b (Api.delete_prompt s pid).1
      rw [api_delete_prompt_fst]
      intro kp hkp
      exact ht kp (List.Sublist.mem hkp (derase_sublist _ _))
  | deleteCollection cid =>
      show TimesOK b (Api.delete_collection s cid).1
      rw [api_delete_collection_fst]
      intro kp hkp
      exact ht kp (List.Sublist.mem hkp (foldl_derase_sublist _ _))
  | createPrompt d newId now => simp [ApiOp.time] at hop
  | updatePrompt pid d now => simp [ApiOp.time] at hop
  | patchPrompt pid d now => simp [ApiOp.time] at hop
  | createCollection d newId now => simp [ApiOp.time] at hop

theorem times_run : ∀ (ops : List ApiOp) (s : Storage) (b : Nat),
    TimesOK b s → WellTimed b ops →
    ∃ b', TimesOK b' (ops.foldl ApiOp.step s) := by
  intro ops
  induction ops with
  | nil =>
      intro s b ht _
      exact ⟨b, ht⟩
  | cons op rest ih =>
      intro s b ht hw
      rw [List.foldl_cons]
      cases hop : ApiOp.time op with
      | some t =>
          simp only [WellTimed, hop] at hw
          exact ih (ApiOp.step s op) t (times_step_some hop ht hw.1) hw.2
      | none =>
          simp only [WellTimed, hop] at hw
          exact ih (ApiOp.step s op) b (times_step_none hop ht) hw

/-- C5: a successful full update or patch never changes `created_at` and
sets `updated_at` to the current clock reading, so across successive
successful updates served with a monotone clock `updated_at` never
decreases; and along every request trace from the empty store whose clock
readings are monotone, every stored prompt satisfies
`created_at ≤ updated_at` at all times. -/
theorem prompt_timestamp_invariants :
    (∀ (s : Storage) (pid : String) (d : PromptUpdate) (now : Nat) (ex : Prompt)
        (s' : Storage) (q : Prompt),
      Storage.get_prompt s pid = some ex →
      Api.update_prompt s pid d now = (s', Except.ok q) →
      q.created_at = ex.created_at ∧ q.updated_at = now ∧
        (ex.updated_at ≤ now → ex.updated_at ≤ q.updated_at)) ∧
    (∀ (s : Storage) (pid : String) (d : PromptPatch) (now : Nat) (ex : Prompt)
        (s' : Storage) (q : Prompt),
      Storage.get_prompt s pid = some ex →
      Api.patch_prompt s pid d now = (s', Except.ok q) →
      q.created_at = ex.created_at ∧ q.updated_at = now ∧
        (ex.updated_at ≤ now → ex.updated_at ≤ q.updated_at)) ∧
    (∀ (b : Nat) (ops : List ApiOp),
      WellTimed b ops →
      ∀ kp ∈ (runOps ops).prompts, kp.2.created_at ≤ kp.2.updated_at) := by
  refine ⟨?_, ?_, ?_⟩
  · intro s pid d now ex s' q h hp
    obtain ⟨_, hq, _⟩ := update_prompt_ok_inv h hp
    subst hq
    exact ⟨rfl, rfl, fun hle => hle⟩
  · intro s pid d now ex s' q h hp
    obtain ⟨newCid, _, hq, _⟩ := patch_prompt_ok_inv h hp
    subst hq
    exact ⟨rfl, rfl, fun hle => hle⟩
  · intro b ops hw
    have hempty : TimesOK b Storage.empty := by
      intro kp hkp
      cases hkp
    obtain ⟨b', hb⟩ := times_run ops Storage.empty b hempty hw
    exact fun kp hkp => (hb kp hkp).1

/-- Witness for C5: the concrete update of `p1` at time 9 keeps
`created_at`, sets `updated_at` to 9 and does not decrease it, and the
prompt created by the well-timed trace `opsW` satisfies
`created_at ≤ updated_at`. -/
theorem prompt_timestamp_invariants_witness :
    ((replacedPrompt pMember dGoodUpdate 9).created_at = pMember.created_at ∧
      (replacedPrompt pMember dGoodUpdate 9).updated_at = 9 ∧
      (pMember.updated_at ≤ 9 →
        pMember.updated_at ≤ (replacedPrompt pMember dGoodUpdate 9).updated_at)) ∧
    (createdPrompt dW "p9" 2).created_at ≤ (createdPrompt dW "p9" 2).updated_at := by
  constructor
  · exact prompt_timestamp_invariants.1 sampleStore "p1" dGoodUpdate 9 pMember
      (Api.update_prompt sampleStore "p1" dGoodUpdate 9).1
      (replacedPrompt pMember dGoodUpdate 9) rfl rfl
  · exact prompt_timestamp_invariants.2.2 0 opsW
      (by simp [WellTimed, ApiOp.time])
      ("p9", createdPrompt dW "p9" 2) (by decide)

end PromptLab
